import Mathlib

/-!
Verification of the SMTPlan driver (`src/SMTPlan/src/SMTPlan.cpp`).

The file shallowly embeds the driver's two functions, `parseArguments`
and `main`, together with the pieces of state they manipulate.  External
collaborators (parser, grounder, RPG pruner, output file system, the
shelled-out solver) are abstracted into an `Env` record of their observable
results; the driver's control flow over those results is translated
line by line from the C++ source.
-/

namespace SMTPlan

/-- `SMTPlan::PlannerOptions`, the resolved run configuration
(`PlannerOptions.h`, populated by `parseArguments`, SMTPlan.cpp:45-109). -/
structure PlannerOptions where
  domain_path : String
  problem_path : String
  encoding_path : String
  solve : Bool
  explanatory_var_names : Bool
  lower_bound : Int
  upper_bound : Int
  step_size : Int
  prune : Bool
  rpg_lower_bound : Bool
deriving Repr, DecidableEq

/-- One entry of the `SMTPlan::Argument argument[]` table (SMTPlan.cpp:20-30):
a flag name and whether it consumes a following value.  The help text plays
no role in control flow and is omitted. -/
structure Argument where
  name : String
  has_value : Bool
deriving Repr, DecidableEq

/-- The argument table of SMTPlan.cpp:20-30, in declaration order: nine
entries. -/
def argument : List Argument :=
  [ { name := "-h", has_value := false },
    { name := "-p", has_value := false },
    { name := "-l", has_value := true },
    { name := "-r", has_value := false },
    { name := "-u", has_value := true },
    { name := "-s", has_value := true },
    { name := "-o", has_value := true },
    { name := "-n", has_value := false },
    { name := "-e", has_value := false } ]

/-- `number_of_arguments` (SMTPlan.cpp:19).  The table above has nine
entries but this count is 7, so every `for(j=0; j<number_of_arguments;
j++)` scan stops before the `-n` and `-e` entries. -/
def number_of_arguments : Nat := 7

/-- The table prefix the argument scan of SMTPlan.cpp:65 actually visits:
the first `number_of_arguments` entries.  `-n` and `-e` are outside it,
so the program treats those flags as unrecognised arguments. -/
def scannedArguments : List Argument :=
  argument.take number_of_arguments

/-- C `isspace` for the default locale, as consumed by `atoi`. -/
def isCSpace (c : Char) : Bool :=
  c = ' ' ∨ c = '\t' ∨ c = '\n' ∨ c = '\x0b' ∨ c = '\x0c' ∨ c = '\r'

/-- Accumulate leading decimal digits, stopping at the first non-digit. -/
def atoiDigits : List Char → Int → Int
  | [], acc => acc
  | c :: cs, acc =>
    if c.isDigit then atoiDigits cs (10 * acc + (c.toNat - 48 : Nat)) else acc

/-- C `atoi`: skip leading whitespace, read an optional sign and then
leading digits; a string with no leading digits yields 0. -/
def atoi (s : String) : Int :=
  match s.toList.dropWhile isCSpace with
  | '-' :: rest => - atoiDigits rest 0
  | '+' :: rest => atoiDigits rest 0
  | l => atoiDigits l 0

/-- How `parseArguments` can fail (return `false`): `-h` given
(SMTPlan.cpp:81-82), a value-taking flag at the end of the argument vector
(SMTPlan.cpp:74-77, message printed with `fprintf(stdout, ...)`), or an
argument matching no table entry (SMTPlan.cpp:102-105, message printed on
`std::cerr`).  The constructor records the offending token the C++ code
prints. -/
inductive ParseErr where
  | helpRequested
  | missingValue (flag : String)
  | unrecognised (tok : String)
deriving Repr, DecidableEq

/-- The two output channels of the process. -/
inductive OutChannel where
  | out
  | err
deriving Repr, DecidableEq

/-- Which channel each `parseArguments` failure writes its message to:
the missing-value message uses `fprintf(stdout, ...)` (SMTPlan.cpp:75),
the unrecognised-argument message uses `std::cerr` (SMTPlan.cpp:103), and
`-h` prints nothing at the failure site (SMTPlan.cpp:81-82). -/
def errChannel : ParseErr → Option OutChannel
  | .helpRequested => none
  | .missingValue _ => some .out
  | .unrecognised _ => some .err

/-- The option-assignment chain of SMTPlan.cpp:81-99, for a matched table
entry `name`.  For value-taking flags `value` is `argv[i]` after the `i++`;
for the flag-only options the C++ code reads no value. -/
def setOption (name value : String) (o : PlannerOptions) : PlannerOptions :=
  if name = "-l" then { o with lower_bound := atoi value }
  else if name = "-u" then { o with upper_bound := atoi value }
  else if name = "-s" then { o with step_size := atoi value }
  else if name = "-o" then { o with encoding_path := value }
  else if name = "-n" then { o with solve := false }
  else if name = "-p" then { o with prune := true }
  else if name = "-r" then { o with rpg_lower_bound := true }
  else if name = "-e" then { o with explanatory_var_names := true }
  else o

/-- The inner `for(j=0; j<number_of_arguments; j++)` loop of
SMTPlan.cpp:65-101.  `js` is the remaining table suffix, `cur` is
`argv[i]` for the current (mutable) `i`, `rest` the tokens after it,
`found` the running `argumentFound`.  A matched value-taking flag
executes `i++` (SMTPlan.cpp:73): `cur` becomes the consumed value and the
scan of the remaining table entries continues against it, exactly as in
the C++ code.  Returns `argumentFound`, the updated options, and the
tokens still to be handled by the outer loop. -/
def innerLoop : List Argument → String → List String → Bool → PlannerOptions →
    Except ParseErr (Bool × PlannerOptions × List String)
  | [], _, rest, found, o => .ok (found, o, rest)
  | a :: js, cur, rest, found, o =>
    if a.name = cur then
      if a.name = "-h" then .error .helpRequested
      else if a.has_value then
        match rest with
        | [] => .error (.missingValue a.name)
        | v :: rest' => innerLoop js v rest' true (setOption a.name v o)
      else innerLoop js cur rest true (setOption a.name cur o)
    else innerLoop js cur rest found o

/-- On success the inner loop only ever hands back a suffix of the tokens
it was given. -/
theorem innerLoop_rest_length :
    ∀ (js : List Argument) (cur : String) (rest : List String) (found : Bool)
      (o : PlannerOptions) (b : Bool) (o' : PlannerOptions) (r' : List String),
      innerLoop js cur rest found o = .ok (b, o', r') → r'.length ≤ rest.length := by
  intro js
  induction js with
  | nil =>
    intro cur rest found o b o' r' h
    simp only [innerLoop] at h
    cases h
    exact Nat.le_refl _
  | cons a js ih =>
    intro cur rest found o b o' r' h
    simp only [innerLoop] at h
    by_cases hname : a.name = cur
    · simp only [hname, if_pos rfl] at h
      by_cases hh : a.name = "-h"
      · rw [hname] at hh
        simp only [hh] at h
        cases h
      · rw [hname] at hh
        simp only [if_neg hh] at h
        by_cases hv : a.has_value
        · simp only [hv, if_pos] at h
          cases rest with
          | nil => cases h
          | cons v rest' =>
            have := ih v rest' true _ b o' r' h
            exact Nat.le_succ_of_le this
        · simp only [hv] at h
          exact ih cur rest true _ b o' r' h
    · simp only [if_neg hname] at h
      exact ih cur rest found o b o' r' h

/-- The outer `for(i=3; i<argc; i++)` loop of SMTPlan.cpp:62-106 over the
trailing tokens, threading the options record.  The inner scan visits
only the `scannedArguments` prefix of the table, as the source's
`j < number_of_arguments` bound does. -/
def parseLoop (args : List String) (o : PlannerOptions) :
    Except ParseErr PlannerOptions :=
  match h : args with
  | [] => .ok o
  | tok :: rest =>
    match h2 : innerLoop scannedArguments tok rest false o with
    | .error e => .error e
    | .ok (found, o', rest') =>
      if found then parseLoop rest' o'
      else .error (.unrecognised tok)
termination_by args.length
decreasing_by
  subst h
  exact Nat.lt_succ_of_le
    (innerLoop_rest_length scannedArguments tok rest false o found o' rest' h2)

/-- The defaults installed by SMTPlan.cpp:48-59 before any trailing
argument is read. -/
def defaultOptions (d p : String) : PlannerOptions :=
  { domain_path := d
    problem_path := p
    encoding_path := ""
    solve := true
    explanatory_var_names := true
    lower_bound := 1
    upper_bound := -1
    step_size := 1
    prune := false
    rpg_lower_bound := false }

/-- `parseArguments` (SMTPlan.cpp:45-109): store the two positional paths,
install the defaults, then run the argument loop over `argv[3..]`. -/
def parseArguments (d p : String) (args : List String) :
    Except ParseErr PlannerOptions :=
  parseLoop args (defaultOptions d p)

/-- The observable results of the external collaborators `main` consults:
whether `Parser::parseDomain` / `Parser::parseProblem` succeed
(SMTPlan.cpp:153), whether `Grounder::ground` succeeds, the pruner's
`goal_layer` (SMTPlan.cpp:170), whether opening the per-iteration output
file succeeds (SMTPlan.cpp:184-185), and the process exit status of the
shelled-out solver pipeline (SMTPlan.cpp:200) at each happening count. -/
structure Env where
  parseDomainOk : Bool
  parseProblemOk : Bool
  groundOk : Bool
  goal_layer : Int
  fileOpenOk : Int → Bool
  solverResult : Int → Int

/-- Where one iteration's encoding is written (SMTPlan.cpp:181-189):
`std::cout` when the encoding path is empty, otherwise the file at that
path. -/
inductive Dest where
  | stdout
  | file (path : String)
deriving Repr, DecidableEq

/-- How a run of `main` ends.  `exitUsage` is the `argc < 3` check
(SMTPlan.cpp:137-140), `exitArg` a `parseArguments` failure
(SMTPlan.cpp:144-147), `exitParseFail` a domain/problem parse failure
(SMTPlan.cpp:153-156), `exitGroundFail` a grounding failure,
`fileOpenFail` the unopenable output file (SMTPlan.cpp:185-188),
`found` the `return 0` on a zero solver status (SMTPlan.cpp:200-204),
`exhausted` the fall-through past the loop (SMTPlan.cpp:210-213), and
`outOfFuel` marks a run the fuel bound cut short (the C++ loop with a
negative upper bound and no zero solver status never terminates). -/
inductive RunResult where
  | exitUsage
  | exitArg (e : ParseErr)
  | exitParseFail
  | exitGroundFail
  | fileOpenFail (i : Int)
  | found (i : Int)
  | exhausted
  | outOfFuel
deriving Repr, DecidableEq

/-- The search loop of SMTPlan.cpp:176-208, returning its outcome, the
list of `(happening count, destination)` pairs actually encoded
(`encoder.encode(...)`, SMTPlan.cpp:193) in order, and the list of
happening counts at which the solver pipeline was invoked
(SMTPlan.cpp:200).  The loop condition, the per-iteration destination
choice and file-open check, the `return 0` on solver status zero, and the
`i++` increment are translated directly. -/
def searchLoop (env : Env) (opts : PlannerOptions) :
    Nat → Int → RunResult × List (Int × Dest) × List Int
  | 0, _ => (.outOfFuel, [], [])
  | fuel + 1, i =>
    if opts.upper_bound < 0 ∨ i ≤ opts.upper_bound then
      if opts.encoding_path ≠ "" ∧ ¬ env.fileOpenOk i then
        (.fileOpenFail i, [], [])
      else
        let d : Dest :=
          if opts.encoding_path = "" then .stdout else .file opts.encoding_path
        if env.solverResult i = 0 then (.found i, [(i, d)], [i])
        else
          let r := searchLoop env opts fuel (i + 1)
          (r.1, (i, d) :: r.2.1, i :: r.2.2)
    else (.exhausted, [], [])

/-- The positional command line: `argv[1]`, `argv[2]` and the trailing
`argv[3..]`. -/
structure Cmdline where
  domain : String
  problem : String
  args : List String

/-- `main` (SMTPlan.cpp:134-214).  `cmd = none` is a call with `argc < 3`.
After a successful parse the driver parses domain and problem, grounds,
builds the RPG, overwrites `lower_bound` with `pruner.goal_layer` when
`rpg_lower_bound` is set (SMTPlan.cpp:169-170), unconditionally overwrites
`encoding_path` with `"test.smt2"` (SMTPlan.cpp:175), and enters the
search loop at `lower_bound`.

The grounding-failure branch is modelled from the spec: `Grounder::ground`
is not under src/ (only this call site is), and the spec says a
GroundingError aborts the run before any pruning or encoding with exit
code 1. -/
def runMain (env : Env) (cmd : Option Cmdline) (fuel : Nat) :
    RunResult × List (Int × Dest) × List Int :=
  match cmd with
  | none => (.exitUsage, [], [])
  | some c =>
    match parseArguments c.domain c.problem c.args with
    | .error e => (.exitArg e, [], [])
    | .ok opts =>
      if env.parseDomainOk ∧ env.parseProblemOk then
        if env.groundOk then
          let opts1 :=
            if opts.rpg_lower_bound then { opts with lower_bound := env.goal_layer }
            else opts
          let opts2 := { opts1 with encoding_path := "test.smt2" }
          searchLoop env opts2 fuel opts2.lower_bound
        else (.exitGroundFail, [], [])
      else (.exitParseFail, [], [])

/-- The process exit status for each way a run can end: 1 on the four
failure returns (SMTPlan.cpp:139, 146, 155, 187), 0 on a found bound
(SMTPlan.cpp:203) and on falling past the loop (SMTPlan.cpp:213); no
status when the fuel bound cut the loop short. -/
def exitCode : RunResult → Option Int
  | .exitUsage => some 1
  | .exitArg _ => some 1
  | .exitParseFail => some 1
  | .exitGroundFail => some 1
  | .fileOpenFail _ => some 1
  | .found _ => some 0
  | .exhausted => some 0
  | .outOfFuel => none

/-- Whether the run printed the usage text: `printUsage` is called exactly
on the `argc < 3` path (SMTPlan.cpp:138) and on the `parseArguments`
failure path (SMTPlan.cpp:145). -/
def usagePrinted : RunResult → Bool
  | .exitUsage => true
  | .exitArg _ => true
  | _ => false

/-- A run environment in which every external collaborator succeeds and
the solver pipeline always exits with status 1 (no plan at any bound). -/
def allOkUnsatEnv : Env :=
  { parseDomainOk := true
    parseProblemOk := true
    groundOk := true
    goal_layer := 0
    fileOpenOk := fun _ => true
    solverResult := fun _ => 1 }

/-!  ## General lemmas about the embedded driver  -/

theorem parseLoop_nil (o : PlannerOptions) : parseLoop [] o = .ok o := by
  rw [parseLoop]

theorem parseArguments_nil (d p : String) :
    parseArguments d p [] = .ok (defaultOptions d p) := by
  rw [parseArguments, parseLoop]

/-- Appending further tokens does not disturb a successful inner-loop
scan: the same tokens are consumed and the appended suffix is passed
through. -/
theorem innerLoop_append :
    ∀ (js : List Argument) (cur : String) (rest ys : List String) (found : Bool)
      (o : PlannerOptions) (b : Bool) (o' : PlannerOptions) (r' : List String),
      innerLoop js cur rest found o = .ok (b, o', r') →
      innerLoop js cur (rest ++ ys) found o = .ok (b, o', r' ++ ys) := by
  intro js
  induction js with
  | nil =>
    intro cur rest ys found o b o' r' h
    simp only [innerLoop] at h ⊢
    cases h
    rfl
  | cons a js ih =>
    intro cur rest ys found o b o' r' h
    simp only [innerLoop] at h ⊢
    by_cases hname : a.name = cur
    · simp only [hname, if_pos rfl] at h ⊢
      by_cases hh : cur = "-h"
      · simp only [hh] at h
        cases h
      · simp only [if_neg hh] at h ⊢
        by_cases hv : a.has_value
        · simp only [hv, if_pos] at h ⊢
          cases rest with
          | nil => cases h
          | cons v rest0 =>
            simp only [List.cons_append]
            exact ih v rest0 ys true _ b o' r' h
        · simp only [hv] at h ⊢
          exact ih cur rest ys true _ b o' r' h
    · simp only [if_neg hname] at h ⊢
      exact ih cur rest ys found o b o' r' h

/-- `parseLoop_append` bounded by an explicit measure on the token list,
for the induction. -/
theorem parseLoop_append_aux :
    ∀ (n : Nat) (xs ys : List String) (o o' : PlannerOptions), xs.length ≤ n →
      parseLoop xs o = .ok o' → parseLoop (xs ++ ys) o = parseLoop ys o' := by
  intro n
  induction n with
  | zero =>
    intro xs ys o o' hlen h
    cases xs with
    | nil =>
      rw [parseLoop_nil] at h
      cases h
      rfl
    | cons tok rest => simp at hlen
  | succ n ih =>
    intro xs ys o o' hlen h
    cases xs with
    | nil =>
      rw [parseLoop_nil] at h
      cases h
      rfl
    | cons tok rest =>
      rw [parseLoop] at h
      split at h
      · exact absurd h (by simp)
      · next found o1 rest1 heq =>
        have happ := innerLoop_append scannedArguments tok rest ys false o found o1 rest1 heq
        split at h
        · next hfound =>
          have hrest1 : rest1.length ≤ n := by
            have := innerLoop_rest_length scannedArguments tok rest false o found o1 rest1 heq
            have hr : rest.length ≤ n := by
              simpa using Nat.le_of_succ_le_succ (by simpa using hlen)
            exact Nat.le_trans this hr
          have hmain := ih rest1 ys o1 o' hrest1 h
          show parseLoop (tok :: (rest ++ ys)) o = parseLoop ys o'
          rw [parseLoop]
          split
          · next e heq2 =>
            rw [happ] at heq2
            cases heq2
          · next found2 o2 rest2 heq2 =>
            rw [happ] at heq2
            injection heq2 with heq3
            cases heq3
            simp only [hfound, if_pos]
            exact hmain
        · exact absurd h (by simp)

/-- The outer argument loop is a left-to-right pass threading the options
record: once a prefix parses successfully, the remaining tokens are parsed
starting from the options the prefix produced. -/
theorem parseLoop_append (xs ys : List String) (o o' : PlannerOptions)
    (h : parseLoop xs o = .ok o') : parseLoop (xs ++ ys) o = parseLoop ys o' :=
  parseLoop_append_aux xs.length xs ys o o' (Nat.le_refl _) h

/-- One outer iteration whose inner scan recognises its token continues
the outer loop on the tokens the scan left over. -/
theorem parseLoop_cons_ok (tok : String) (rest : List String) (o o1 : PlannerOptions)
    (rest1 : List String)
    (h : innerLoop scannedArguments tok rest false o = .ok (true, o1, rest1)) :
    parseLoop (tok :: rest) o = parseLoop rest1 o1 := by
  rw [parseLoop]
  split
  · next e heq =>
    rw [h] at heq
    cases heq
  · next found2 o2 rest2 heq =>
    rw [h] at heq
    injection heq with heq2
    cases heq2
    simp

/-- A loop iteration whose guard fails exits with the exhausted outcome
and no further work (SMTPlan.cpp:176, 210-213). -/
theorem searchLoop_not_entered (env : Env) (opts : PlannerOptions) (fuel : Nat) (i : Int)
    (h : ¬ (opts.upper_bound < 0 ∨ i ≤ opts.upper_bound)) :
    searchLoop env opts (fuel + 1) i = (.exhausted, [], []) := by
  simp only [searchLoop, if_neg h]

/-- The loop reports a found bound only on the solver success status:
`found j` forces `solverResult j = 0`. -/
theorem searchLoop_found_solver_zero :
    ∀ (fuel : Nat) (env : Env) (opts : PlannerOptions) (i j : Int),
      (searchLoop env opts fuel i).1 = .found j → env.solverResult j = 0 := by
  intro fuel
  induction fuel with
  | zero =>
    intro env opts i j h
    simp [searchLoop] at h
  | succ fuel ih =>
    intro env opts i j h
    simp only [searchLoop] at h
    split at h
    · split at h
      · simp at h
      · split at h
        · next hsolve =>
          simp at h
          rw [← h]
          exact hsolve
        · exact ih env opts (i + 1) j (by simpa using h)
    · simp at h

/-- When every iteration opens its file and the solver never returns the
success status, a bounded loop run falls through to the exhausted outcome
once the fuel covers the remaining range. -/
theorem searchLoop_exhausts :
    ∀ (fuel : Nat) (env : Env) (opts : PlannerOptions) (i : Int),
      0 ≤ opts.upper_bound →
      (∀ j, env.fileOpenOk j) →
      (∀ j, env.solverResult j ≠ 0) →
      (opts.upper_bound + 1 - i).toNat < fuel →
      (searchLoop env opts fuel i).1 = .exhausted := by
  intro fuel
  induction fuel with
  | zero =>
    intro env opts i h0 hf hs hfuel
    omega
  | succ fuel ih =>
    intro env opts i h0 hf hs hfuel
    by_cases hin : opts.upper_bound < 0 ∨ i ≤ opts.upper_bound
    · have hle : i ≤ opts.upper_bound := by omega
      simp only [searchLoop, if_pos hin]
      rw [if_neg (by simp [hf i])]
      rw [if_neg (hs i)]
      exact ih env opts (i + 1) h0 hf hs (by omega)
    · rw [searchLoop_not_entered env opts fuel i hin]

/-- The happening count the search loop starts from (SMTPlan.cpp:169-170,
176): the pruner's goal layer when `rpg_lower_bound` is set, otherwise the
configured lower bound. -/
def startingBound (env : Env) (opts : PlannerOptions) : Int :=
  if opts.rpg_lower_bound then env.goal_layer else opts.lower_bound

/-- Once the argument parse and the three external setup phases succeed,
`main` is the search loop started at `startingBound`, on the options with
`encoding_path` overwritten to `"test.smt2"` (SMTPlan.cpp:169-176). -/
theorem runMain_loop (env : Env) (c : Cmdline) (opts : PlannerOptions) (fuel : Nat)
    (hparse : parseArguments c.domain c.problem c.args = .ok opts)
    (hd : env.parseDomainOk) (hp : env.parseProblemOk) (hg : env.groundOk) :
    runMain env (some c) fuel =
      searchLoop env
        { (if opts.rpg_lower_bound then { opts with lower_bound := env.goal_layer } else opts)
          with encoding_path := "test.smt2" }
        fuel (startingBound env opts) := by
  simp only [runMain, hparse, if_pos (And.intro hd hp), if_pos hg, startingBound]
  split <;> rfl

/-!  ## The claims  -/

/-- C1: the claim says the controller visits happening counts L, L+S,
L+2S, ... for configured step size S.  The code violates this (and the
help text of its own `-s` flag): the loop of SMTPlan.cpp:176 advances `i`
with `i++` and never reads `step_size`.  With `-l 1 -u 3 -s 2` and an
always-unsatisfiable solver, the driver encodes and tries the bounds
1, 2, 3, where the claimed sequence is 1, 3, before the no-plan exit. -/
theorem C1_step_size_ignored :
    parseArguments "d" "p" ["-l", "1", "-u", "3", "-s", "2"] =
      .ok { defaultOptions "d" "p" with upper_bound := 3, step_size := 2 } ∧
    ((runMain allOkUnsatEnv (some ⟨"d", "p", ["-l", "1", "-u", "3", "-s", "2"]⟩) 10).2.1.map
        Prod.fst) = [1, 2, 3] ∧
    (runMain allOkUnsatEnv (some ⟨"d", "p", ["-l", "1", "-u", "3", "-s", "2"]⟩) 10).1 =
      .exhausted ∧
    [(1 : Int), 2, 3] ≠ [1, 3] := by
  refine ⟨?_, ?_, ?_, by decide⟩ <;>
    simp [parseArguments, parseLoop, innerLoop, scannedArguments, number_of_arguments, argument, setOption, defaultOptions, atoi,
      atoiDigits, isCSpace, runMain, searchLoop, allOkUnsatEnv]

/-- C2: the claim says a `-n` run performs exactly one encode step at the
starting count and exits without invoking the solver.  The code violates
this: the table lists `-n` (index 7) with help text "Do not solve", and
the option chain of SMTPlan.cpp:91-92 has a branch for it, but
`number_of_arguments = 7` (SMTPlan.cpp:19) stops the scan of
SMTPlan.cpp:65 before that entry, so a `-n` run is rejected as an
unrecognised argument: it exits 1 having performed no encode and no
solver call (and `options.solve` is in any case never read in `main`). -/
theorem C2_emit_only_unavailable :
    parseArguments "d" "p" ["-n"] = .error (.unrecognised "-n") ∧
    runMain allOkUnsatEnv (some ⟨"d", "p", ["-n"]⟩) 10 =
      (.exitArg (.unrecognised "-n"), [], []) ∧
    exitCode (.exitArg (.unrecognised "-n")) = some 1 ∧
    "-n" ∈ argument.map Argument.name ∧
    "-n" ∉ scannedArguments.map Argument.name := by
  refine ⟨?_, ?_, rfl, by decide, by decide⟩ <;>
    simp [parseArguments, parseLoop, innerLoop, scannedArguments, number_of_arguments,
      argument, setOption, defaultOptions, runMain, allOkUnsatEnv]

/-- C3: the claim says the formula goes to the `-o` path, or to standard
output when no path is configured.  The code violates this: `main`
overwrites `options.encoding_path` with `"test.smt2"` before the loop
(SMTPlan.cpp:175), so every iteration writes the file `test.smt2` — both
when `-o mine.smt2` was given and when no `-o` was given at all (where
the claim requires standard output). -/
theorem C3_output_destination_hardcoded :
    parseArguments "d" "p" ["-o", "mine.smt2", "-u", "1"] =
      .ok { defaultOptions "d" "p" with encoding_path := "mine.smt2", upper_bound := 1 } ∧
    (runMain allOkUnsatEnv (some ⟨"d", "p", ["-o", "mine.smt2", "-u", "1"]⟩) 10).2.1 =
      [(1, Dest.file "test.smt2")] ∧
    (runMain allOkUnsatEnv (some ⟨"d", "p", ["-u", "1"]⟩) 10).2.1 =
      [(1, Dest.file "test.smt2")] ∧
    Dest.file "test.smt2" ≠ Dest.file "mine.smt2" ∧
    Dest.file "test.smt2" ≠ Dest.stdout := by
  refine ⟨?_, ?_, ?_, by decide, by decide⟩ <;>
    simp [parseArguments, parseLoop, innerLoop, scannedArguments, number_of_arguments, argument, setOption, defaultOptions, atoi,
      atoiDigits, isCSpace, runMain, searchLoop, allOkUnsatEnv]

/-- C5: a solver status other than 0 at bound `i` only makes that
iteration a non-match: the rest of the run is exactly the loop restarted
at `i + 1`, with the iteration's own encode and solver-call events
prepended, and the loop reports a found bound only on status 0 — so a
failing solver invocation never aborts the run. -/
theorem C5_solver_nonzero_continues :
    (∀ (env : Env) (opts : PlannerOptions) (fuel : Nat) (i : Int),
       (opts.upper_bound < 0 ∨ i ≤ opts.upper_bound) →
       ¬ (opts.encoding_path ≠ "" ∧ ¬ env.fileOpenOk i) →
       env.solverResult i ≠ 0 →
       searchLoop env opts (fuel + 1) i =
         ((searchLoop env opts fuel (i + 1)).1,
          (i, if opts.encoding_path = "" then Dest.stdout else Dest.file opts.encoding_path)
            :: (searchLoop env opts fuel (i + 1)).2.1,
          i :: (searchLoop env opts fuel (i + 1)).2.2)) ∧
    (∀ (env : Env) (opts : PlannerOptions) (fuel : Nat) (i j : Int),
       (searchLoop env opts fuel i).1 = .found j → env.solverResult j = 0) := by
  constructor
  · intro env opts fuel i h1 h2 h3
    simp only [searchLoop, if_pos h1, if_neg h2, if_neg h3]
  · exact fun env opts fuel i j h => searchLoop_found_solver_zero fuel env opts i j h

/-- C5 witness: one concrete unsatisfiable iteration at bound 1 of a
default-configured loop proceeds to bound 2. -/
theorem C5_solver_nonzero_continues_witness :
    searchLoop allOkUnsatEnv (defaultOptions "d" "p") 2 1 =
      ((searchLoop allOkUnsatEnv (defaultOptions "d" "p") 1 2).1,
       (1, if (defaultOptions "d" "p").encoding_path = "" then Dest.stdout
           else Dest.file (defaultOptions "d" "p").encoding_path)
         :: (searchLoop allOkUnsatEnv (defaultOptions "d" "p") 1 2).2.1,
       1 :: (searchLoop allOkUnsatEnv (defaultOptions "d" "p") 1 2).2.2) :=
  C5_solver_nonzero_continues.1 allOkUnsatEnv (defaultOptions "d" "p") 1 1
    (Or.inl (by decide)) (by decide) (by decide)

/-- C7: the claim says human-readable names are used when and only when
`-e` is given.  The code violates this twice: the default of
SMTPlan.cpp:54 already enables explanatory names, so a run without `-e`
uses human-readable names where the claim requires terse ones; and
because `number_of_arguments = 7` (SMTPlan.cpp:19) stops the scan before
the `-e` entry (index 8), a run with `-e` is rejected as an unrecognised
argument and exits 1.  Terse indexed naming is unreachable either way. -/
theorem C7_explanatory_names_always_on :
    parseArguments "dom.pddl" "prob.pddl" [] = .ok (defaultOptions "dom.pddl" "prob.pddl") ∧
    (defaultOptions "dom.pddl" "prob.pddl").explanatory_var_names = true ∧
    parseArguments "dom.pddl" "prob.pddl" ["-e"] = .error (.unrecognised "-e") ∧
    "-e" ∈ argument.map Argument.name ∧
    "-e" ∉ scannedArguments.map Argument.name := by
  refine ⟨parseArguments_nil _ _, rfl, ?_, by decide, by decide⟩
  simp [parseArguments, parseLoop, innerLoop, scannedArguments, number_of_arguments, argument]

/-- C8 counterexample: the claim says argument errors are reported to
standard error; but the missing-value message of SMTPlan.cpp:75 is
written with `fprintf(stdout, ...)`, so a run whose last argument is the
value-taking `-l` reports on standard output, not standard error. -/
theorem C8_missing_value_on_stdout :
    parseArguments "d" "p" ["-l"] = .error (.missingValue "-l") ∧
    errChannel (.missingValue "-l") = some .out ∧
    some OutChannel.out ≠ some OutChannel.err := by
  refine ⟨?_, rfl, by decide⟩
  simp [parseArguments, parseLoop, innerLoop, scannedArguments, number_of_arguments, argument]

/-- C8 (amended): for an unknown flag the message goes to standard error,
while for a value-taking flag given last with no value it goes to standard
output; in both cases the usage text is printed, the process exits 1, and
no parsing, grounding, or encoding work is attempted (the run's outcome
does not consult any collaborator and performs no encode or solver
call). -/
theorem C8_argument_error_handling :
    (∀ t, errChannel (.unrecognised t) = some .err) ∧
    (∀ f, errChannel (.missingValue f) = some .out) ∧
    (∀ (env : Env) (c : Cmdline) (e : ParseErr) (fuel : Nat),
       parseArguments c.domain c.problem c.args = .error e →
       runMain env (some c) fuel = (.exitArg e, [], []) ∧
       exitCode (.exitArg e) = some 1 ∧ usagePrinted (.exitArg e) = true) := by
  refine ⟨fun t => rfl, fun f => rfl, ?_⟩
  intro env c e fuel h
  refine ⟨?_, rfl, rfl⟩
  simp [runMain, h]

/-- C8 witness: the unknown flag `-x` aborts a run with exit code 1,
usage printed, and no work done, for any environment. -/
theorem C8_argument_error_handling_witness :
    runMain allOkUnsatEnv (some ⟨"d", "p", ["-x"]⟩) 5 =
      (.exitArg (.unrecognised "-x"), [], []) ∧
    exitCode (.exitArg (.unrecognised "-x")) = some 1 ∧
    usagePrinted (.exitArg (.unrecognised "-x")) = true :=
  C8_argument_error_handling.2.2 allOkUnsatEnv ⟨"d", "p", ["-x"]⟩ (.unrecognised "-x") 5
    (by simp [parseArguments, parseLoop, innerLoop, scannedArguments, number_of_arguments, argument])

/-- C4: exit code 1 arises from the `argc < 3` check, an argument-parse
failure, a domain/problem parse failure, a grounding failure (modelled
from the spec, see `runMain`), and an output-file-open failure; a found
bound and an exhausted search both exit 0; and conversely a terminated run
has exit code 0 only on found/exhausted and 1 only on one of those
failures. -/
theorem C4_exit_codes :
    (∀ (env : Env) (fuel : Nat), exitCode (runMain env none fuel).1 = some 1) ∧
    (∀ (env : Env) (c : Cmdline) (fuel : Nat) (e : ParseErr),
       parseArguments c.domain c.problem c.args = .error e →
       exitCode (runMain env (some c) fuel).1 = some 1) ∧
    (∀ (env : Env) (c : Cmdline) (fuel : Nat),
       ¬ (env.parseDomainOk ∧ env.parseProblemOk) →
       exitCode (runMain env (some c) fuel).1 = some 1) ∧
    (∀ (env : Env) (c : Cmdline) (fuel : Nat),
       ¬ env.groundOk → exitCode (runMain env (some c) fuel).1 = some 1) ∧
    (∀ (env : Env) (c : Cmdline) (opts : PlannerOptions) (fuel : Nat),
       parseArguments c.domain c.problem c.args = .ok opts →
       env.parseDomainOk → env.parseProblemOk → env.groundOk →
       (opts.upper_bound < 0 ∨ startingBound env opts ≤ opts.upper_bound) →
       ¬ env.fileOpenOk (startingBound env opts) →
       exitCode (runMain env (some c) (fuel + 1)).1 = some 1) ∧
    (∀ (env : Env) (c : Cmdline) (opts : PlannerOptions) (fuel : Nat),
       parseArguments c.domain c.problem c.args = .ok opts →
       env.parseDomainOk → env.parseProblemOk → env.groundOk →
       (opts.upper_bound < 0 ∨ startingBound env opts ≤ opts.upper_bound) →
       env.fileOpenOk (startingBound env opts) →
       env.solverResult (startingBound env opts) = 0 →
       exitCode (runMain env (some c) (fuel + 1)).1 = some 0) ∧
    (∀ (env : Env) (c : Cmdline) (opts : PlannerOptions) (fuel : Nat),
       parseArguments c.domain c.problem c.args = .ok opts →
       env.parseDomainOk → env.parseProblemOk → env.groundOk →
       0 ≤ opts.upper_bound →
       (∀ j, env.fileOpenOk j) →
       (∀ j, env.solverResult j ≠ 0) →
       (opts.upper_bound + 1 - startingBound env opts).toNat < fuel →
       exitCode (runMain env (some c) fuel).1 = some 0) ∧
    (∀ r : RunResult, exitCode r = some 0 → (∃ i, r = .found i) ∨ r = .exhausted) ∧
    (∀ r : RunResult, exitCode r = some 1 →
       r = .exitUsage ∨ (∃ e, r = .exitArg e) ∨ r = .exitParseFail ∨
       r = .exitGroundFail ∨ ∃ i, r = .fileOpenFail i) := by
  refine ⟨fun env fuel => rfl, ?_, ?_, ?_, ?_, ?_, ?_, ?_, ?_⟩
  · intro env c fuel e h
    simp [runMain, h, exitCode]
  · intro env c fuel h
    cases hp : parseArguments c.domain c.problem c.args with
    | error e => simp [runMain, hp, exitCode]
    | ok opts => simp [runMain, hp, if_neg h, exitCode]
  · intro env c fuel h
    cases hp : parseArguments c.domain c.problem c.args with
    | error e => simp [runMain, hp, exitCode]
    | ok opts =>
      by_cases hdp : env.parseDomainOk ∧ env.parseProblemOk
      · simp [runMain, hp, if_pos hdp, if_neg h, exitCode]
      · simp [runMain, hp, if_neg hdp, exitCode]
  · intro env c opts fuel hparse hd hpr hg hin hopen
    rw [runMain_loop env c opts (fuel + 1) hparse hd hpr hg]
    have hu : ({ (if opts.rpg_lower_bound then { opts with lower_bound := env.goal_layer }
        else opts) with encoding_path := "test.smt2" } : PlannerOptions).upper_bound =
        opts.upper_bound := by
      split <;> rfl
    simp only [searchLoop]
    rw [if_pos (by rw [hu]; exact hin)]
    rw [if_pos (by exact ⟨by decide, hopen⟩)]
    rfl
  · intro env c opts fuel hparse hd hpr hg hin hopen hsolve
    rw [runMain_loop env c opts (fuel + 1) hparse hd hpr hg]
    have hu : ({ (if opts.rpg_lower_bound then { opts with lower_bound := env.goal_layer }
        else opts) with encoding_path := "test.smt2" } : PlannerOptions).upper_bound =
        opts.upper_bound := by
      split <;> rfl
    simp only [searchLoop]
    rw [if_pos (by rw [hu]; exact hin)]
    rw [if_neg (by simp [hopen])]
    rw [if_pos hsolve]
    rfl
  · intro env c opts fuel hparse hd hpr hg h0 hf hs hfuel
    rw [runMain_loop env c opts fuel hparse hd hpr hg]
    have hu : ({ (if opts.rpg_lower_bound then { opts with lower_bound := env.goal_layer }
        else opts) with encoding_path := "test.smt2" } : PlannerOptions).upper_bound =
        opts.upper_bound := by
      split <;> rfl
    rw [searchLoop_exhausts fuel env _ (startingBound env opts) (by rw [hu]; exact h0) hf hs
      (by rw [hu]; exact hfuel)]
    rfl
  · intro r h
    cases r with
    | found i => exact Or.inl ⟨i, rfl⟩
    | exhausted => exact Or.inr rfl
    | exitUsage => simp [exitCode] at h
    | exitArg e => simp [exitCode] at h
    | exitParseFail => simp [exitCode] at h
    | exitGroundFail => simp [exitCode] at h
    | fileOpenFail i => simp [exitCode] at h
    | outOfFuel => simp [exitCode] at h
  · intro r h
    cases r with
    | exitUsage => exact Or.inl rfl
    | exitArg e => exact Or.inr (Or.inl ⟨e, rfl⟩)
    | exitParseFail => exact Or.inr (Or.inr (Or.inl rfl))
    | exitGroundFail => exact Or.inr (Or.inr (Or.inr (Or.inl rfl)))
    | fileOpenFail i => exact Or.inr (Or.inr (Or.inr (Or.inr ⟨i, rfl⟩)))
    | found i => simp [exitCode] at h
    | exhausted => simp [exitCode] at h
    | outOfFuel => simp [exitCode] at h

/-- C4 witness: an unknown flag exits 1; a run with upper bound 2 and an
always-unsatisfiable solver exhausts the range and exits 0. -/
theorem C4_exit_codes_witness :
    exitCode (runMain allOkUnsatEnv (some ⟨"d", "p", ["-x"]⟩) 5).1 = some 1 ∧
    exitCode (runMain allOkUnsatEnv (some ⟨"d", "p", ["-u", "2"]⟩) 5).1 = some 0 := by
  constructor
  · exact C4_exit_codes.2.1 allOkUnsatEnv ⟨"d", "p", ["-x"]⟩ 5 (.unrecognised "-x")
      (by simp [parseArguments, parseLoop, innerLoop, scannedArguments, number_of_arguments, argument])
  · exact C4_exit_codes.2.2.2.2.2.2.1 allOkUnsatEnv ⟨"d", "p", ["-u", "2"]⟩
      { defaultOptions "d" "p" with upper_bound := 2 } 5
      (by simp [parseArguments, parseLoop, innerLoop, scannedArguments, number_of_arguments, argument, setOption, defaultOptions,
        atoi, atoiDigits, isCSpace])
      rfl rfl rfl (by decide) (fun _ => rfl) (fun _ => one_ne_zero) (by decide)

/-- C6: the search's starting happening count is the pruner's goal layer
when `-r` is set (overriding the configured lower bound), and the
configured lower bound otherwise; the configured lower bound defaults
to 1. -/
theorem C6_starting_bound :
    (∀ (env : Env) (c : Cmdline) (opts : PlannerOptions) (fuel : Nat),
       parseArguments c.domain c.problem c.args = .ok opts →
       env.parseDomainOk → env.parseProblemOk → env.groundOk →
       (opts.upper_bound < 0 ∨ startingBound env opts ≤ opts.upper_bound) →
       env.fileOpenOk (startingBound env opts) →
       ((runMain env (some c) (fuel + 1)).2.1.map Prod.fst).head? =
         some (startingBound env opts)) ∧
    (∀ (env : Env) (opts : PlannerOptions),
       opts.rpg_lower_bound = true → startingBound env opts = env.goal_layer) ∧
    (∀ (env : Env) (opts : PlannerOptions),
       opts.rpg_lower_bound = false → startingBound env opts = opts.lower_bound) ∧
    (∀ d p, parseArguments d p ["-r"] =
       .ok { defaultOptions d p with rpg_lower_bound := true }) ∧
    (∀ d p, (defaultOptions d p).lower_bound = 1 ∧
       (defaultOptions d p).rpg_lower_bound = false) := by
  refine ⟨?_, ?_, ?_, ?_, fun d p => ⟨rfl, rfl⟩⟩
  · intro env c opts fuel hparse hd hpr hg hin hopen
    rw [runMain_loop env c opts (fuel + 1) hparse hd hpr hg]
    have hu : ({ (if opts.rpg_lower_bound then { opts with lower_bound := env.goal_layer }
        else opts) with encoding_path := "test.smt2" } : PlannerOptions).upper_bound =
        opts.upper_bound := by
      split <;> rfl
    simp only [searchLoop]
    rw [if_pos (by rw [hu]; exact hin)]
    rw [if_neg (by simp [hopen])]
    by_cases hsolve : env.solverResult (startingBound env opts) = 0
    · rw [if_pos hsolve]
      rfl
    · rw [if_neg hsolve]
      rfl
  · intro env opts h
    simp [startingBound, h]
  · intro env opts h
    simp [startingBound, h]
  · intro d p
    simp [parseArguments, parseLoop, innerLoop, scannedArguments, number_of_arguments, argument, setOption, defaultOptions]

/-- C6 witness: a default run (no `-r`) with upper bound 5 encodes first
at the configured default lower bound 1. -/
theorem C6_starting_bound_witness :
    ((runMain allOkUnsatEnv (some ⟨"d", "p", ["-u", "5"]⟩) 3).2.1.map Prod.fst).head? =
      some (startingBound allOkUnsatEnv { defaultOptions "d" "p" with upper_bound := 5 }) :=
  C6_starting_bound.1 allOkUnsatEnv ⟨"d", "p", ["-u", "5"]⟩
    { defaultOptions "d" "p" with upper_bound := 5 } 2
    (by simp [parseArguments, parseLoop, innerLoop, scannedArguments, number_of_arguments, argument, setOption, defaultOptions,
      atoi, atoiDigits, isCSpace])
    rfl rfl rfl (Or.inr (by decide)) (by decide)

/-- C9: `parseArguments` first installs the fixed defaults (solve on,
explanatory naming on, lower bound 1, upper bound -1, step 1, pruning
off, reachability bound off) and then folds the trailing tokens left to
right, each recognized occurrence overwriting the current value — so for
a repeated flag the last occurrence determines the final value, shown
here for the value-taking `-l` (with a value that is not one of the
scanned flag names that could chain) and for the flag-only `-p`. -/
theorem C9_defaults_and_last_wins :
    (∀ d p, parseArguments d p [] = .ok (defaultOptions d p)) ∧
    (∀ d p, defaultOptions d p =
       { domain_path := d, problem_path := p, encoding_path := "", solve := true,
         explanatory_var_names := true, lower_bound := 1, upper_bound := -1,
         step_size := 1, prune := false, rpg_lower_bound := false }) ∧
    (∀ (xs ys : List String) (o o' : PlannerOptions),
       parseLoop xs o = .ok o' → parseLoop (xs ++ ys) o = parseLoop ys o') ∧
    (∀ (xs : List String) (o o' : PlannerOptions) (v : String),
       parseLoop xs o = .ok o' →
       v ≠ "-r" → v ≠ "-u" → v ≠ "-s" → v ≠ "-o" →
       parseLoop (xs ++ ["-l", v]) o = .ok { o' with lower_bound := atoi v }) ∧
    (∀ (xs : List String) (o o' : PlannerOptions),
       parseLoop xs o = .ok o' → parseLoop (xs ++ ["-p"]) o = .ok { o' with prune := true }) := by
  refine ⟨parseArguments_nil, fun d p => rfl, parseLoop_append, ?_, ?_⟩
  · intro xs o o' v h hr hu hs ho
    have hinner : innerLoop scannedArguments "-l" [v] false o' =
        .ok (true, { o' with lower_bound := atoi v }, []) := by
      simp [innerLoop, scannedArguments, number_of_arguments, argument, setOption,
        Ne.symm hr, Ne.symm hu, Ne.symm hs, Ne.symm ho]
    rw [parseLoop_append xs ["-l", v] o o' h, parseLoop_cons_ok "-l" [v] o' _ [] hinner,
      parseLoop_nil]
  · intro xs o o' h
    have hinner : innerLoop scannedArguments "-p" [] false o' =
        .ok (true, { o' with prune := true }, []) := by
      simp [innerLoop, scannedArguments, number_of_arguments, argument, setOption]
    rw [parseLoop_append xs ["-p"] o o' h, parseLoop_cons_ok "-p" [] o' _ [] hinner,
      parseLoop_nil]

/-- C9 witness: of two `-l` occurrences the later one wins. -/
theorem C9_defaults_and_last_wins_witness :
    parseLoop (["-l", "3"] ++ ["-l", "5"]) (defaultOptions "d" "p") =
      .ok { defaultOptions "d" "p" with lower_bound := atoi "5" } := by
  have h := C9_defaults_and_last_wins.2.2.2.1 ["-l", "3"] (defaultOptions "d" "p")
    { defaultOptions "d" "p" with lower_bound := 3 } "5"
    (by simp [parseLoop, innerLoop, scannedArguments, number_of_arguments, argument,
      setOption, defaultOptions, atoi, atoiDigits, isCSpace])
    (by decide) (by decide) (by decide) (by decide)
  simpa using h

/-- C10: when the effective upper bound is non-negative and strictly
below the starting happening count, the loop guard of SMTPlan.cpp:176
fails at once: nothing is encoded, the solver is never invoked, the run
ends on the no-plan path (SMTPlan.cpp:210-213) with exit code 0. -/
theorem C10_degenerate_bounds :
    ∀ (env : Env) (c : Cmdline) (opts : PlannerOptions) (fuel : Nat),
      parseArguments c.domain c.problem c.args = .ok opts →
      env.parseDomainOk → env.parseProblemOk → env.groundOk →
      0 ≤ opts.upper_bound →
      opts.upper_bound < startingBound env opts →
      runMain env (some c) (fuel + 1) = (.exhausted, [], []) ∧
      exitCode .exhausted = some 0 := by
  intro env c opts fuel hparse hd hpr hg h0 hlt
  refine ⟨?_, rfl⟩
  rw [runMain_loop env c opts (fuel + 1) hparse hd hpr hg]
  apply searchLoop_not_entered
  have hu : ({ (if opts.rpg_lower_bound then { opts with lower_bound := env.goal_layer }
      else opts) with encoding_path := "test.smt2" } : PlannerOptions).upper_bound =
      opts.upper_bound := by
    split <;> rfl
  rw [hu]
  omega

/-- C10 witness: `-l 5 -u 3` never enters the loop and exits 0. -/
theorem C10_degenerate_bounds_witness :
    runMain allOkUnsatEnv (some ⟨"d", "p", ["-l", "5", "-u", "3"]⟩) 1 =
      (.exhausted, [], []) ∧
    exitCode .exhausted = some 0 :=
  C10_degenerate_bounds allOkUnsatEnv ⟨"d", "p", ["-l", "5", "-u", "3"]⟩
    { defaultOptions "d" "p" with lower_bound := 5, upper_bound := 3 } 0
    (by simp [parseArguments, parseLoop, innerLoop, scannedArguments, number_of_arguments, argument, setOption, defaultOptions,
      atoi, atoiDigits, isCSpace])
    rfl rfl rfl (by decide) (by decide)

